import Mathlib

/-!
Shallow embedding of the ByteHot javadoc-fixing scripts
(`.github/scripts/fix-generic-params.py` and `.github/scripts/mass-fix-javadoc.py`)
and proofs about them.

Line buffers are modelled as `List String`, each element being one line exactly as
Python `readlines` yields it (trailing newline included).  The filesystem is an
association list from path to line buffer.  Python built-ins used by the scripts
(`str.split`, `str.strip`, `str.isdigit`, `int`, `in` substring test, `list.insert`,
negative indexing, `re.search` for the two concrete patterns appearing in the code)
are modelled by executable functions below.
-/

/-! ## Python string primitives -/

/-- Substring test over char lists: models the Python `needle in haystack` test. -/
def containsL (pat : List Char) : List Char → Bool
  | [] => pat.isEmpty
  | c :: cs => pat.isPrefixOf (c :: cs) || containsL pat cs

/-- Models Python `pat in s` for strings. -/
def strContains (s pat : String) : Bool :=
  containsL pat.toList s.toList

/-- Split a char list on a separator character; models Python `str.split(sep)`
for a single-character separator. -/
def splitCharL (sep : Char) : List Char → List (List Char)
  | [] => [[]]
  | c :: cs =>
    let r := splitCharL sep cs
    if c == sep then [] :: r
    else
      match r with
      | [] => [[c]]
      | g :: gs => (c :: g) :: gs

/-- Models Python `s.split(sep)` for a one-character separator. -/
def pySplit (s : String) (sep : Char) : List String :=
  (splitCharL sep s.toList).map (fun g => String.mk g)

/-- Models Python `sep.join(parts)`. -/
def pyJoin (sep : String) : List String → String
  | [] => ""
  | [x] => x
  | x :: y :: xs => x ++ sep ++ pyJoin sep (y :: xs)

/-- Models Python `s.strip()` (whitespace stripped from both ends). -/
def pyStrip (s : String) : String :=
  String.mk (((s.toList.dropWhile Char.isWhitespace).reverse.dropWhile
      Char.isWhitespace).reverse)

/-- Models Python `s.lstrip()`. -/
def pyLstrip (s : String) : String :=
  String.mk (s.toList.dropWhile Char.isWhitespace)

/-- Models Python `s.isdigit()` for ASCII input: nonempty and all digits. -/
def pyIsDigit (s : String) : Bool :=
  !s.toList.isEmpty && s.toList.all Char.isDigit

/-- Numeric value of a digit string. -/
def digitsToNat (cs : List Char) : Nat :=
  cs.foldl (fun n c => 10 * n + (c.toNat - 48)) 0

/-- Models Python `int(s)` on the inputs the scripts can feed it: optional sign
followed by decimal digits after stripping whitespace; `none` models the
`ValueError` raised on any other shape. -/
def pyInt (s : String) : Option Int :=
  match (pyStrip s).toList with
  | [] => none
  | '-' :: ds =>
    if !ds.isEmpty && ds.all Char.isDigit then some (-(digitsToNat ds : Int)) else none
  | '+' :: ds =>
    if !ds.isEmpty && ds.all Char.isDigit then some ((digitsToNat ds : Int)) else none
  | ds =>
    if ds.all Char.isDigit then some ((digitsToNat ds : Int)) else none

/-- Models Python `s.startswith(pre)`. -/
def pyStartsWith (s pre : String) : Bool :=
  pre.toList.isPrefixOf s.toList

/-- Models Python `s[n:]` for a nonnegative `n`. -/
def pyDropStr (s : String) (n : Nat) : String :=
  String.mk (s.toList.drop n)

/-- Models Python `s.lower()` (ASCII). -/
def pyLower (s : String) : String :=
  String.mk (s.toList.map Char.toLower)

/-- A run of `n` spaces; models Python `' ' * n`. -/
def spaces (n : Nat) : String :=
  String.mk (List.replicate n ' ')

/-- The literal marker searched by `re.search(r'no @param for <([^>]+)>', ...)`. -/
def gpMarker : List Char :=
  "no @param for <".toList

/-- Models `re.search(r'no @param for <([^>]+)>', msg)`: finds the earliest
position at which the literal marker is followed by a nonempty run of
non-`>` characters and then a `>`, returning the captured run. -/
def searchParamName : List Char → Option String
  | [] => none
  | c :: cs =>
    if gpMarker.isPrefixOf (c :: cs) then
      let rest := (c :: cs).drop gpMarker.length
      let name := rest.takeWhile (fun d => d != '>')
      if !name.isEmpty && !(rest.dropWhile (fun d => d != '>')).isEmpty then
        some (String.mk name)
      else searchParamName cs
    else searchParamName cs

/-- Capture of the generic-parameter regex applied to a message string. -/
def extractParamName (msg : String) : Option String :=
  searchParamName msg.toList

/-- A regex `\w` character (ASCII). -/
def isWordChar (c : Char) : Bool :=
  c.isAlphanum || c == '_'

/-- Models `re.search(r'(\w+)\s*\(', line)`: the earliest maximal `\w+` run that,
after optional whitespace, is followed by `(`; returns the captured run. -/
def searchMethodName : List Char → Option String
  | [] => none
  | c :: cs =>
    if isWordChar c then
      let run := (c :: cs).takeWhile isWordChar
      let rest := ((c :: cs).dropWhile isWordChar).dropWhile Char.isWhitespace
      if rest.headD ' ' == '(' then some (String.mk run) else searchMethodName cs
    else searchMethodName cs

/-! ## List-insertion primitives -/

/-- Models Python `l.insert(n, a)` for a nonnegative index (append when `n > len`). -/
def pyInsert (l : List String) (n : Nat) (a : String) : List String :=
  l.take n ++ a :: l.drop n

/-- Models Python `l.insert(i, a)` including negative-index clamping. -/
def pyInsertZ (l : List String) (i : Int) (a : String) : List String :=
  if 0 ≤ i then pyInsert l i.toNat a else pyInsert l ((l.length : Int) + i).toNat a

/-- Successive single-line insertions of `content` at positions `a, a+1, ...`,
exactly as the `for i, javadoc_line in enumerate(javadoc_lines): lines.insert(...)`
loop of `add_method_comment` performs them (nonnegative anchor). -/
def insertBlock : List String → Nat → List String → List String
  | l, _, [] => l
  | l, a, c :: cs => insertBlock (pyInsert l a c) (a + 1) cs

/-- The same successive-insertion loop with a Python (possibly negative) index. -/
def insertBlockZ : List String → Int → List String → List String
  | l, _, [] => l
  | l, i, c :: cs => insertBlockZ (pyInsertZ l i c) (i + 1) cs

/-- Models Python `lines[i]` with bounds check and negative indexing;
`none` models `IndexError`. -/
def pyIndex (lines : List String) (i : Int) : Option String :=
  if 0 ≤ i then
    if i < (lines.length : Int) then some (lines.getD i.toNat "") else none
  else
    if 0 ≤ (lines.length : Int) + i then
      some (lines.getD ((lines.length : Int) + i).toNat "")
    else none

/-! ## Filesystem model -/

/-- Filesystem: association list from file path to line buffer. -/
abbrev FS : Type :=
  List (String × List String)

/-- Models `open(p).readlines()`; `none` models the raised `IOError`. -/
def fsRead (fs : FS) (p : String) : Option (List String) :=
  (fs.find? (fun e => e.1 == p)).map Prod.snd

/-- Models `os.path.exists(p)`. -/
def fsExists (fs : FS) (p : String) : Bool :=
  (fs.find? (fun e => e.1 == p)).isSome

/-- Models `open(p, 'w').writelines(ls)`: full overwrite. -/
def fsWrite (fs : FS) (p : String) (ls : List String) : FS :=
  if (List.find? (fun e => e.1 == p) fs).isSome then
    fs.map (fun e => if e.1 == p then (p, ls) else e)
  else fs ++ [(p, ls)]

/-! ## Data model -/

/-- One parsed diagnostic of `mass-fix-javadoc.py`: the `(file_path, line, message)`
tuple built by `JavadocMassFixer.get_all_issues`. -/
structure MIssue where
  file_path : String
  line : Int
  message : String
deriving DecidableEq

/-- One parsed diagnostic of `fix-generic-params.py`: the `(file_path, line, param)`
tuple built by `get_generic_param_issues`. -/
structure GIssue where
  file_path : String
  line : Int
  param_name : String
deriving DecidableEq

/-! ## Diagnostic parsing -/

/-- One loop iteration of `JavadocMassFixer.get_all_issues`: marker test, split on
colons, at-least-three-segments test, numeric line field, nonempty path. -/
def parseLineM (line : String) : Option MIssue :=
  if ((strContains line "warning:" || strContains line "error:") &&
      strContains line ":") then
    let parts := pySplit line ':'
    if 3 ≤ parts.length then
      let fp := pyStrip (parts.headD "")
      let lns := pyStrip (parts.getD 1 "")
      let msg := pyStrip (pyJoin ":" (parts.drop 2))
      if !fp.toList.isEmpty && pyIsDigit lns then
        some ⟨fp, (digitsToNat lns.toList : Int), msg⟩
      else none
    else none
  else none

/-- All issues collected by `get_all_issues` before deduplication. -/
def massIssuesRaw (text : String) : List MIssue :=
  (pySplit text '\n').filterMap parseLineM

/-- `JavadocMassFixer.get_all_issues`: `list(set(issues))` returns the distinct
issues in an unspecified order; modelled by `List.dedup` (same members). -/
def massGetAllIssues (text : String) : List MIssue :=
  (massIssuesRaw text).dedup

/-- One loop iteration of `get_generic_param_issues` in `fix-generic-params.py`.
`Except.error ()` models the `ValueError` raised by `int(parts[1].strip())`,
which is only caught by the `try` wrapping the whole function. -/
def gParseLine (line : String) : Except Unit (Option GIssue) :=
  if (strContains line "no @param for <" && strContains line ":") then
    let parts := pySplit line ':'
    if 3 ≤ parts.length then
      match pyInt (parts.getD 1 "") with
      | none => Except.error ()
      | some ln =>
        let msg := pyStrip (pyJoin ":" (parts.drop 2))
        match extractParamName msg with
        | some name => Except.ok (some ⟨pyStrip (parts.headD ""), ln, name⟩)
        | none => Except.ok none
    else Except.ok none
  else Except.ok none

/-- The collection loop of `get_generic_param_issues`: stops with an error as soon
as one line raises. -/
def gCollect : List String → Except Unit (List GIssue)
  | [] => Except.ok []
  | l :: ls =>
    match gParseLine l with
    | Except.error e => Except.error e
    | Except.ok o =>
      match gCollect ls with
      | Except.error e => Except.error e
      | Except.ok rest =>
        Except.ok (match o with | some iss => iss :: rest | none => rest)

/-- `get_generic_param_issues` applied to a list of stderr lines: the surrounding
`except` clause converts any raised error into an empty result. -/
def gIssuesOfLines (ls : List String) : List GIssue :=
  match gCollect ls with
  | Except.ok l => l
  | Except.error _ => []

/-- `get_generic_param_issues` applied to raw stderr text. -/
def getGenericParamIssues (text : String) : List GIssue :=
  gIssuesOfLines (pySplit text '\n')

/-! ## Anchor location -/

/-- Models Python `range(start, stop, -1)` over the integers:
`[start, start-1, ..., stop+1]`. -/
def descRangeZ (start stop : Int) : List Int :=
  (List.range (start - stop).toNat).map (fun k => start - Int.ofNat k)

/-- The body test of the anchor-scan loop:
`i < len(lines) and '*/' in lines[i]`. -/
def hasTerm (lines : List String) (i : Int) : Bool :=
  decide (i < (lines.length : Int)) && strContains (lines.getD i.toNat "") "*/"

/-- The anchor scan shared by both scripts:
`for i in range(line_num - 2, max(0, line_num - bound), -1): if i < len(lines) and
'*/' in lines[i]: javadoc_end = i; break`, with `bound = 20` for the generic-param
and `bound = 15` for the return fix. -/
def findJavadocEnd (lines : List String) (line_num bound : Int) : Option Int :=
  (descRangeZ (line_num - 2) (max 0 (line_num - bound))).find? (hasTerm lines)

/-! ## Description synthesis -/

/-- Python `dict.get(k, dflt)` over an association list. -/
def lookupD (tbl : List (String × String)) (k dflt : String) : String :=
  ((tbl.find? (fun e => e.1 == k)).map Prod.snd).getD dflt

/-- The `descriptions` dict of `fix_generic_param` in `fix-generic-params.py`. -/
def gpDescriptions : List (String × String) :=
  [("T", "the type parameter"),
   ("E", "the element type parameter"),
   ("K", "the key type parameter"),
   ("V", "the value type parameter"),
   ("C", "the type parameter"),
   ("O", "the type parameter"),
   ("R", "the return type parameter")]

/-- `descriptions.get(param_name, 'the type parameter')` in `fix-generic-params.py`. -/
def gpDescription (p : String) : String :=
  lookupD gpDescriptions p "the type parameter"

/-- The `descriptions` dict of `JavadocMassFixer.add_generic_param`. -/
def massDescriptions : List (String × String) :=
  [("T", "the type parameter"),
   ("E", "the element type parameter"),
   ("C", "the command type parameter"),
   ("CH", "the command handler type parameter"),
   ("V", "the value type parameter"),
   ("F", "the field type parameter"),
   ("VO", "the value object type parameter"),
   ("S", "the state type parameter"),
   ("S1", "the source state type parameter"),
   ("S2", "the target state type parameter"),
   ("P", "the port type parameter"),
   ("O", "the observer type parameter")]

/-- `descriptions.get(param_name, 'the type parameter')` in `add_generic_param`. -/
def massDescription (p : String) : String :=
  lookupD massDescriptions p "the type parameter"

/-- The return-description chain of `JavadocMassFixer.add_return_annotation`. -/
def returnDesc (method_line : String) : String :=
  if strContains method_line "boolean" then "true if successful, false otherwise"
  else if strContains method_line "String" then "the string representation"
  else if strContains method_line "List" then "the list of items"
  else if strContains method_line "Optional" then "an optional containing the result"
  else "the result of the operation"

/-- The comment-synthesis chain of `JavadocMassFixer.add_method_comment`:
`get`/`set` strip the prefix and lower-case the remainder; `is`/`has` lower-case
the whole name; otherwise the name is used verbatim. -/
def makeComment (name : String) : String :=
  if pyStartsWith name "get" then "Gets the " ++ pyLower (pyDropStr name 3) ++ "."
  else if pyStartsWith name "set" then "Sets the " ++ pyLower (pyDropStr name 3) ++ "."
  else if pyStartsWith name "is" || pyStartsWith name "has" then
    "Checks if " ++ pyLower name ++ "."
  else "Performs " ++ name ++ " operation."

/-- Modelled from the spec: the method-summary rule as the specification words it
(section 4.5): for each recognized prefix, including `is` and `has`, X is the
method name with the prefix stripped and the remainder lower-cased.  Used only to
compare against `makeComment`, which is translated from the code. -/
def specMethodComment (name : String) : String :=
  if pyStartsWith name "get" then "Gets the " ++ pyLower (pyDropStr name 3) ++ "."
  else if pyStartsWith name "set" then "Sets the " ++ pyLower (pyDropStr name 3) ++ "."
  else if pyStartsWith name "is" then "Checks if " ++ pyLower (pyDropStr name 2) ++ "."
  else if pyStartsWith name "has" then "Checks if " ++ pyLower (pyDropStr name 3) ++ "."
  else "Performs " ++ name ++ " operation."

/-! ## Fix operations of `fix-generic-params.py` -/

/-- `fix_generic_param(file_path, line_num, param_name)`: read the file, scan for
the javadoc terminator with bound 20, insert one `@param` line before it, write
back; returns whether the fix was applied. -/
def fixGenericParam (fs : FS) (fp : String) (ln : Int) (pname : String) :
    FS × Bool :=
  match fsRead fs fp with
  | none => (fs, false)
  | some lines =>
    match findJavadocEnd lines ln 20 with
    | none => (fs, false)
    | some j =>
      (fsWrite fs fp
        (pyInsertZ lines j
          ("     * @param <" ++ pname ++ "> " ++ gpDescription pname ++ "\n")),
       true)

/-- The fixing loop of `main()` in `fix-generic-params.py`: for each issue, if the
file exists, run `fix_generic_param` and count the applied fixes. -/
def gpMain (fs : FS) (issues : List GIssue) : FS × Nat :=
  issues.foldl
    (fun st iss =>
      if fsExists st.1 iss.file_path then
        let r := fixGenericParam st.1 iss.file_path iss.line iss.param_name
        (r.1, st.2 + (if r.2 then 1 else 0))
      else st)
    (fs, 0)

/-! ## Fix operations of `mass-fix-javadoc.py` -/

/-- `JavadocMassFixer.add_generic_param`: read, scan with bound 20, insert one
`@param` line, write back, increment `fixes_applied` on success. -/
def addGenericParam (fs : FS) (cnt : Nat) (fp : String) (ln : Int)
    (pname : String) : FS × Nat :=
  match fsRead fs fp with
  | none => (fs, cnt)
  | some lines =>
    match findJavadocEnd lines ln 20 with
    | none => (fs, cnt)
    | some j =>
      (fsWrite fs fp
        (pyInsertZ lines j
          ("     * @param <" ++ pname ++ "> " ++ massDescription pname ++ "\n")),
       cnt + 1)

/-- `JavadocMassFixer.add_return_annotation`: read, require `line_num <= len(lines)`,
inspect the reported line, scan with bound 15, insert one `@return` line. -/
def addReturn (fs : FS) (cnt : Nat) (fp : String) (ln : Int) : FS × Nat :=
  match fsRead fs fp with
  | none => (fs, cnt)
  | some lines =>
    if ln ≤ (lines.length : Int) then
      match pyIndex lines (ln - 1) with
      | none => (fs, cnt)
      | some method_line =>
        match findJavadocEnd lines ln 15 with
        | none => (fs, cnt)
        | some j =>
          (fsWrite fs fp
            (pyInsertZ lines j
              ("     * @return " ++ returnDesc method_line ++ "\n")),
           cnt + 1)
    else (fs, cnt)

/-- `JavadocMassFixer.add_method_comment`: read, require `line_num <= len(lines)`,
strip the reported line, extract a method name, synthesize a three-line comment
block indented by the stripped line's leading whitespace (always zero), and insert
it at positions `line_num - 1`, `line_num`, `line_num + 1`. -/
def addMethodComment (fs : FS) (cnt : Nat) (fp : String) (ln : Int) : FS × Nat :=
  match fsRead fs fp with
  | none => (fs, cnt)
  | some lines =>
    if ln ≤ (lines.length : Int) then
      match pyIndex lines (ln - 1) with
      | none => (fs, cnt)
      | some raw =>
        let method_line := pyStrip raw
        match searchMethodName method_line.toList with
        | none => (fs, cnt)
        | some mname =>
          let indent := method_line.toList.length - (pyLstrip method_line).toList.length
          (fsWrite fs fp
            (insertBlockZ lines (ln - 1)
              [spaces indent ++ "/**\n",
               spaces indent ++ " * " ++ makeComment mname ++ "\n",
               spaces indent ++ " */\n"]),
           cnt + 1)
    else (fs, cnt)

/-! ## The mass fixer's run: three independent passes -/

/-- `JavadocMassFixer.fix_generic_params(issues)`. -/
def fixGenericParams (st : FS × Nat) (issues : List MIssue) : FS × Nat :=
  issues.foldl
    (fun st iss =>
      if strContains iss.message "no @param for <" then
        match extractParamName iss.message with
        | some pname =>
          if fsExists st.1 iss.file_path then
            addGenericParam st.1 st.2 iss.file_path iss.line pname
          else st
        | none => st
      else st)
    st

/-- `JavadocMassFixer.fix_missing_returns(issues)`. -/
def fixMissingReturns (st : FS × Nat) (issues : List MIssue) : FS × Nat :=
  issues.foldl
    (fun st iss =>
      if strContains iss.message "no @return" && fsExists st.1 iss.file_path then
        addReturn st.1 st.2 iss.file_path iss.line
      else st)
    st

/-- `JavadocMassFixer.fix_missing_method_comments(issues)`. -/
def fixMissingMethodComments (st : FS × Nat) (issues : List MIssue) : FS × Nat :=
  issues.foldl
    (fun st iss =>
      if strContains iss.message "no comment" && !strContains iss.message "package" then
        if fsExists st.1 iss.file_path then
          addMethodComment st.1 st.2 iss.file_path iss.line
        else st
      else st)
    st

/-- The fixing phase of `JavadocMassFixer.run`: the three passes in order, applied
to the same issue list, starting from `fixes_applied = 0`. -/
def runFixes (fs : FS) (issues : List MIssue) : FS × Nat :=
  fixMissingMethodComments
    (fixMissingReturns (fixGenericParams (fs, 0) issues) issues) issues

/-! ## Lemmas about the descending scan range -/

theorem descRangeZ_nil {s t : Int} (h : s ≤ t) : descRangeZ s t = [] := by
  unfold descRangeZ
  have h0 : (s - t).toNat = 0 := by omega
  rw [h0]
  rfl

theorem descRangeZ_cons {s t : Int} (h : t < s) :
    descRangeZ s t = s :: descRangeZ (s - 1) t := by
  unfold descRangeZ
  have h1 : (s - t).toNat = (s - 1 - t).toNat + 1 := by omega
  rw [h1, List.range_succ_eq_map _]
  simp only [List.map_cons, List.map_map]
  congr 1
  case _ => simp
  case _ =>
    apply List.map_congr_left
    intro k _
    simp only [Function.comp_apply, Nat.succ_eq_add_one, Int.ofNat_eq_coe]
    push_cast
    ring

theorem mem_descRangeZ {i s t : Int} : i ∈ descRangeZ s t ↔ t < i ∧ i ≤ s := by
  unfold descRangeZ
  rw [List.mem_map]
  simp only [Int.ofNat_eq_coe, List.mem_range]
  constructor
  · rintro ⟨k, hk, rfl⟩
    omega
  · rintro ⟨h1, h2⟩
    refine ⟨(s - i).toNat, ?_, ?_⟩ <;> omega

theorem descRangeZ_length (s t : Int) : (descRangeZ s t).length = (s - t).toNat := by
  unfold descRangeZ
  rw [List.length_map, List.length_range]

/-- The first hit of `find?` on a descending range is the largest in-range index
satisfying the predicate. -/
theorem find?_descRangeZ_spec_aux (p : Int → Bool) :
    ∀ (n : Nat) (s t j : Int), (s - t).toNat = n →
      (descRangeZ s t).find? p = some j →
      p j = true ∧ t < j ∧ j ≤ s ∧ ∀ i, j < i → i ≤ s → p i = false := by
  intro n
  induction n with
  | zero =>
    intro s t j hn h
    rw [descRangeZ_nil (by omega)] at h
    simp at h
  | succ n ih =>
    intro s t j hn h
    have hts : t < s := by omega
    rw [descRangeZ_cons hts] at h
    cases hps : p s with
    | true =>
      rw [List.find?_cons_of_pos _ hps] at h
      cases h
      exact ⟨hps, hts, le_refl _, fun i h1 h2 => absurd h1 (by omega)⟩
    | false =>
      rw [List.find?_cons_of_neg _ (by simp [hps])] at h
      obtain ⟨h1, h2, h3, h4⟩ := ih (s - 1) t j (by omega) h
      refine ⟨h1, h2, by omega, fun i hji his => ?_⟩
      by_cases hi : i = s
      · rw [hi]; exact hps
      · exact h4 i hji (by omega)

theorem find?_descRangeZ_spec {p : Int → Bool} {s t j : Int}
    (h : (descRangeZ s t).find? p = some j) :
    p j = true ∧ t < j ∧ j ≤ s ∧ ∀ i, j < i → i ≤ s → p i = false :=
  find?_descRangeZ_spec_aux p (s - t).toNat s t j rfl h

/-- Conversely, the largest in-range index satisfying the predicate is found. -/
theorem find?_descRangeZ_eq_some_aux (p : Int → Bool) :
    ∀ (n : Nat) (s t j : Int), (s - t).toNat = n →
      p j = true → t < j → j ≤ s → (∀ i, j < i → i ≤ s → p i = false) →
      (descRangeZ s t).find? p = some j := by
  intro n
  induction n with
  | zero =>
    intro s t j hn _ h2 h3 _
    omega
  | succ n ih =>
    intro s t j hn h1 h2 h3 h4
    have hts : t < s := by omega
    rw [descRangeZ_cons hts]
    by_cases hjs : j = s
    · subst hjs
      exact List.find?_cons_of_pos _ h1
    · have hps : p s = false := h4 s (by omega) (le_refl _)
      rw [List.find?_cons_of_neg _ (by simp [hps])]
      exact ih (s - 1) t j (by omega) h1 h2 (by omega)
        (fun i hi1 hi2 => h4 i hi1 (by omega))

theorem find?_descRangeZ_eq_some {p : Int → Bool} {s t j : Int}
    (h1 : p j = true) (h2 : t < j) (h3 : j ≤ s)
    (h4 : ∀ i, j < i → i ≤ s → p i = false) :
    (descRangeZ s t).find? p = some j :=
  find?_descRangeZ_eq_some_aux p (s - t).toNat s t j rfl h1 h2 h3 h4

theorem find?_descRangeZ_eq_none {p : Int → Bool} {s t : Int}
    (h : ∀ i, t < i → i ≤ s → p i = false) :
    (descRangeZ s t).find? p = none := by
  rw [List.find?_eq_none]
  intro x hx
  obtain ⟨h1, h2⟩ := mem_descRangeZ.mp hx
  simp [h x h1 h2]

/-! ## Lemmas about the anchor scan -/

theorem findJavadocEnd_some_spec {lines : List String} {n b j : Int}
    (h : findJavadocEnd lines n b = some j) :
    hasTerm lines j = true ∧ max 0 (n - b) < j ∧ j ≤ n - 2 ∧
      ∀ i, j < i → i ≤ n - 2 → hasTerm lines i = false :=
  find?_descRangeZ_spec h

theorem findJavadocEnd_eq_none {lines : List String} {n b : Int}
    (h : ∀ i, max 0 (n - b) < i → i ≤ n - 2 → hasTerm lines i = false) :
    findJavadocEnd lines n b = none :=
  find?_descRangeZ_eq_none h

theorem hasTerm_true_iff {lines : List String} {i : Int} :
    hasTerm lines i = true ↔
      i < (lines.length : Int) ∧ strContains (lines.getD i.toNat "") "*/" = true := by
  unfold hasTerm
  simp

/-! ## Lemmas about insertion -/

theorem take_pyInsert (l : List String) (a : Nat) (c : String) :
    (pyInsert l a c).take (a + 1) = l.take a ++ [c] := by
  induction l generalizing a with
  | nil => simp [pyInsert]
  | cons x xs ih =>
    cases a with
    | zero => simp [pyInsert]
    | succ a =>
      simp only [pyInsert, List.take_succ_cons, List.drop_succ_cons, List.cons_append]
      have h := ih a
      simp only [pyInsert] at h
      rw [h]

theorem drop_pyInsert (l : List String) (a : Nat) (c : String) :
    (pyInsert l a c).drop (a + 1) = l.drop a := by
  induction l generalizing a with
  | nil => simp [pyInsert]
  | cons x xs ih =>
    cases a with
    | zero => simp [pyInsert]
    | succ a =>
      simp only [pyInsert, List.take_succ_cons, List.cons_append, List.drop_succ_cons]
      have h := ih a
      simp only [pyInsert] at h
      rw [h]

theorem insertBlock_eq (cs : List String) :
    ∀ (l : List String) (a : Nat), insertBlock l a cs = l.take a ++ cs ++ l.drop a := by
  induction cs with
  | nil => intro l a; simp [insertBlock]
  | cons c cs ih =>
    intro l a
    show insertBlock (pyInsert l a c) (a + 1) cs = _
    rw [ih, take_pyInsert, drop_pyInsert]
    simp [pyInsert]

theorem insertBlock_length (l cs : List String) (a : Nat) :
    (insertBlock l a cs).length = l.length + cs.length := by
  rw [insertBlock_eq]
  simp only [List.length_append, List.length_take, List.length_drop]
  omega

theorem insertBlock_getElem?_lt (l cs : List String) (a i : Nat)
    (hia : i < a) (hil : i < l.length) :
    (insertBlock l a cs)[i]? = l[i]? := by
  rw [insertBlock_eq, List.append_assoc]
  rw [List.getElem?_append_left (by simp; omega)]
  simp [List.getElem?_take, hia]

theorem insertBlock_getElem?_ge (l cs : List String) (a i : Nat)
    (hia : a ≤ i) (hil : i < l.length) :
    (insertBlock l a cs)[i + cs.length]? = l[i]? := by
  rw [insertBlock_eq, List.append_assoc]
  have hlt : l.take a ++ (cs ++ l.drop a) = l.take a ++ cs ++ l.drop a := by
    simp [List.append_assoc]
  have hta : (l.take a).length = a := by simp; omega
  rw [List.getElem?_append_right (by omega)]
  rw [List.getElem?_append_right (by simp [hta]; omega)]
  rw [List.getElem?_drop]
  congr 1
  simp [hta]
  omega

/-! ## Generic helper lemmas -/

theorem foldl_fix_id {α β : Type} (f : β → α → β) (l : List α)
    (h : ∀ st x, x ∈ l → f st x = st) : ∀ st : β, l.foldl f st = st := by
  induction l with
  | nil => intro st; rfl
  | cons a l ih =>
    intro st
    rw [List.foldl_cons, h st a (by simp)]
    exact ih (fun st x hx => h st x (by simp [hx])) st

theorem gCollect_error_of_mem :
    ∀ ls : List String, (∃ l ∈ ls, gParseLine l = Except.error ()) →
      gCollect ls = Except.error () := by
  intro ls
  induction ls with
  | nil =>
    rintro ⟨l, hl, _⟩
    simp at hl
  | cons a ls ih =>
    rintro ⟨l, hl, herr⟩
    rcases List.mem_cons.mp hl with h | h
    · subst h
      unfold gCollect
      rw [herr]
    · unfold gCollect
      cases hpa : gParseLine a with
      | error e => cases e; rfl
      | ok o =>
        rw [ih ⟨l, h, herr⟩]

/-! ## Concrete fixtures used by the claim theorems -/

/-- Buffer with a declaration at 1-based line 10 and the only documentation-block
terminator at 1-based line 5 (zero-based index 4). -/
def buf10 : List String :=
  ["l1\n", "l2\n", "l3\n", "l4\n", " */\n", "l6\n", "l7\n", "l8\n", "l9\n",
   "void decl()\n"]

/-- Buffer whose only terminator sits on the file's first line. -/
def bufC9 : List String :=
  ["*/\n", "a\n", "b\n", "c\n"]

def fsC9 : FS :=
  [("B.java", bufC9)]

def fsC1 : FS :=
  [("A.java", ["a\n", "b\n", " */\n", "d\n", "e\n"])]

/-- An issue whose message matches both the generic-param pattern and the
missing-return pattern. -/
def issC1 : MIssue :=
  ⟨"A.java", 5, "warning: no @param for <T> and no @return"⟩

def linesFoo : List String :=
  ["line 1\n", "line 2\n", "line 3\n", "line 4\n", "/**\n", " * Does things.\n",
   " * More.\n", " * Even more.\n", " */\n", "public <T> T foo()\n", "line 11\n",
   "line 12\n"]

/-- `linesFoo` with the generic-param annotation inserted before former line 9. -/
def linesFooFixed : List String :=
  ["line 1\n", "line 2\n", "line 3\n", "line 4\n", "/**\n", " * Does things.\n",
   " * More.\n", " * Even more.\n", "     * @param <T> the type parameter\n",
   " */\n", "public <T> T foo()\n", "line 11\n", "line 12\n"]

def fsC4 : FS :=
  [("src/Foo.java", linesFoo)]

def diag4 : String :=
  "src/Foo.java:12: warning: no @param for <T>"

def fsC6 : FS :=
  [("C.java", ["public boolean isEmpty()\n"])]

def fsC7 : FS :=
  [("D.java", ["package a;\n", "    public void doWork()\n"])]

def fsC8 : FS :=
  [("E.java", ["x\n", " */\n", "class E\n", "y\n"])]

def linesC10 : List String :=
  ["l0\n", "l1\n", "l2\n", "l3\n", "l4\n", "l5\n", "l6\n", "l7\n", " */\n"]

def fsC10 : FS :=
  [("A.java", linesC10)]

/-! ## Claim C3 -/

/-- C3: the anchor search starts at zero-based index `reported_line - 2` and scans
upward; it examines at most 18 lines with the generic-param bound (20) and at most
13 with the return bound (15); any returned anchor is the closest
terminator-containing line below the reported line (no terminator lies strictly
between it and the reported line); it returns `none` when the window has no
terminator; and on a buffer with a declaration at line 10 whose only terminator is
at line 5 it returns index 4 exactly when the scan window (`bound - 2`) is at
least 5. -/
theorem C3_anchor_scan_spec :
    (∀ n : Int, (descRangeZ (n - 2) (max 0 (n - 20))).length ≤ 18) ∧
    (∀ n : Int, (descRangeZ (n - 2) (max 0 (n - 15))).length ≤ 13) ∧
    (∀ (lines : List String) (n b j : Int), findJavadocEnd lines n b = some j →
      j < (lines.length : Int) ∧ strContains (lines.getD j.toNat "") "*/" = true ∧
      j ≤ n - 2 ∧
      ∀ i, j < i → i ≤ n - 2 → i < (lines.length : Int) →
        strContains (lines.getD i.toNat "") "*/" = false) ∧
    (∀ (lines : List String) (n b : Int),
      (∀ i, max 0 (n - b) < i → i ≤ n - 2 → hasTerm lines i = false) →
      findJavadocEnd lines n b = none) ∧
    (∀ b : Int, (5 ≤ b - 2 → findJavadocEnd buf10 10 b = some 4) ∧
      (b - 2 < 5 → findJavadocEnd buf10 10 b = none)) := by
  refine ⟨?_, ?_, ?_, ?_, ?_⟩
  · intro n
    rw [descRangeZ_length]
    omega
  · intro n
    rw [descRangeZ_length]
    omega
  · intro lines n b j h
    obtain ⟨h1, h2, h3, h4⟩ := findJavadocEnd_some_spec h
    obtain ⟨hj1, hj2⟩ := hasTerm_true_iff.mp h1
    refine ⟨hj1, hj2, h3, ?_⟩
    intro i hi1 hi2 hi3
    have hfalse := h4 i hi1 hi2
    unfold hasTerm at hfalse
    rw [decide_eq_true hi3, Bool.true_and] at hfalse
    exact hfalse
  · intro lines n b h
    exact findJavadocEnd_eq_none h
  · intro b
    constructor
    · intro hb
      unfold findJavadocEnd
      apply find?_descRangeZ_eq_some
      · decide
      · omega
      · decide
      · intro i hi1 hi2
        have hcase : i = 5 ∨ i = 6 ∨ i = 7 ∨ i = 8 := by omega
        rcases hcase with rfl | rfl | rfl | rfl <;> decide
    · intro hb
      unfold findJavadocEnd
      apply find?_descRangeZ_eq_none
      intro i hi1 hi2
      have hcase : i = 5 ∨ i = 6 ∨ i = 7 ∨ i = 8 := by omega
      rcases hcase with rfl | rfl | rfl | rfl <;> decide

/-- Witness for C3 at concrete windows: the generic bound 20 (window 18) finds the
anchor at index 4, and bound 6 (window 4) does not. -/
theorem C3_witness :
    findJavadocEnd buf10 10 20 = some 4 ∧ findJavadocEnd buf10 10 6 = none :=
  ⟨(C3_anchor_scan_spec.2.2.2.2 20).1 (by decide),
   (C3_anchor_scan_spec.2.2.2.2 6).2 (by decide)⟩

/-! ## Claim C5 -/

/-- C5: inserting `k` lines at anchor `a` (the successive-insertion loop used by
every fix path, of which the single-line insert is the one-element case) grows the
buffer by exactly `k` lines, leaves every line at an index below `a` unchanged at
the same index, and moves every line formerly at index at least `a` unchanged to
its former index plus `k`. -/
theorem C5_patch_frame :
    (∀ (l : List String) (a : Nat) (x : String), pyInsert l a x = insertBlock l a [x]) ∧
    (∀ (buf content : List String) (a : Nat),
      (insertBlock buf a content).length = buf.length + content.length) ∧
    (∀ (buf content : List String) (a i : Nat), i < a → i < buf.length →
      (insertBlock buf a content)[i]? = buf[i]?) ∧
    (∀ (buf content : List String) (a i : Nat), a ≤ i → i < buf.length →
      (insertBlock buf a content)[i + content.length]? = buf[i]?) := by
  refine ⟨?_, ?_, ?_, ?_⟩
  · intro l a x
    rfl
  · intro buf content a
    exact insertBlock_length buf content a
  · intro buf content a i h1 h2
    exact insertBlock_getElem?_lt buf content a i h1 h2
  · intro buf content a i h1 h2
    exact insertBlock_getElem?_ge buf content a i h1 h2

/-- Witness for C5 on a three-line buffer with one inserted line at anchor 1. -/
theorem C5_witness :
    (insertBlock ["a\n", "b\n", "c\n"] 1 ["x\n"]).length =
      (["a\n", "b\n", "c\n"] : List String).length + (["x\n"] : List String).length ∧
    (insertBlock ["a\n", "b\n", "c\n"] 1 ["x\n"])[0]? = (["a\n", "b\n", "c\n"] : List String)[0]? ∧
    (insertBlock ["a\n", "b\n", "c\n"] 1 ["x\n"])[2 + (["x\n"] : List String).length]? =
      (["a\n", "b\n", "c\n"] : List String)[2]? :=
  ⟨C5_patch_frame.2.1 _ _ 1,
   C5_patch_frame.2.2.1 _ _ 1 0 (by decide) (by decide),
   C5_patch_frame.2.2.2 _ _ 1 2 (by decide) (by decide)⟩

/-! ## Claim C9 -/

/-- C9: the scan range excludes its stop value `max 0 (reported_line - bound)`, so
zero-based index 0 is never examined (every scanned index is at least 1); hence a
terminator appearing only on the file's first line is never found even when the
window reaches that far, and the fix is abandoned: on a four-line buffer whose
only terminator is line 1, the scan for reported line 3 with the generic bound
returns `none` and `fix_generic_param` reports not-applied with the file
unchanged. -/
theorem C9_scan_skips_index_zero :
    (∀ n b i : Int, i ∈ descRangeZ (n - 2) (max 0 (n - b)) →
      max 0 (n - b) < i ∧ 1 ≤ i ∧ i ≤ n - 2) ∧
    (∀ (lines : List String) (n b : Int),
      (∀ i : Int, 1 ≤ i → i ≤ n - 2 → hasTerm lines i = false) →
      findJavadocEnd lines n b = none) ∧
    (findJavadocEnd bufC9 3 20 = none ∧ hasTerm bufC9 0 = true ∧
      fixGenericParam fsC9 "B.java" 3 "T" = (fsC9, false)) := by
  refine ⟨?_, ?_, ?_⟩
  · intro n b i hi
    obtain ⟨h1, h2⟩ := mem_descRangeZ.mp hi
    exact ⟨h1, by omega, h2⟩
  · intro lines n b h
    apply find?_descRangeZ_eq_none
    intro i hi1 hi2
    exact h i (by omega) hi2
  · refine ⟨by decide, by decide, by decide⟩

/-- Witness for C9: index 5 of the scan for reported line 10 with bound 20 is
above the exclusive lower bound and at least 1. -/
theorem C9_witness :
    max (0 : Int) (10 - 20) < 5 ∧ (1 : Int) ≤ 5 ∧ (5 : Int) ≤ 10 - 2 :=
  C9_scan_skips_index_zero.1 10 20 5 (by decide)

/-! ## Claim C1 -/

/-- C1 counterexample: a single issue whose message contains both
`no @param for <` and `no @return` receives two fixes from
`JavadocMassFixer.run` (one insertion from the generic-param pass and one from
the return pass, with `fixes_applied = 2`), refuting the claim that an issue
satisfying several patterns receives only the first matching strategy's fix. -/
theorem C1_multi_pattern_double_fix :
    strContains issC1.message "no @param for <" = true ∧
    strContains issC1.message "no @return" = true ∧
    runFixes fsC1 [issC1] =
      ([("A.java",
         ["a\n", "b\n", "     * @param <T> the type parameter\n",
          "     * @return the result of the operation\n", " */\n", "d\n", "e\n"])],
       2) := by
  refine ⟨by decide, by decide, by decide⟩

/-- C1 amended: the mass fixer runs three passes in the order generic-param,
missing-return, missing-method-comment; each pass applies its fix to exactly the
issues whose message matches that pass's own pattern (a pass leaves the state
unchanged when no issue matches its pattern), so an issue matching several
patterns receives one fix from each matching pass rather than only the first. -/
theorem C1_passes_filter_independently :
    (∀ (st : FS × Nat) (issues : List MIssue),
      (∀ iss ∈ issues, strContains iss.message "no @param for <" = false) →
      fixGenericParams st issues = st) ∧
    (∀ (st : FS × Nat) (issues : List MIssue),
      (∀ iss ∈ issues, strContains iss.message "no @return" = false) →
      fixMissingReturns st issues = st) ∧
    (∀ (st : FS × Nat) (issues : List MIssue),
      (∀ iss ∈ issues,
        (strContains iss.message "no comment" && !strContains iss.message "package") =
          false) →
      fixMissingMethodComments st issues = st) ∧
    (∀ (fs : FS) (issues : List MIssue),
      runFixes fs issues =
        fixMissingMethodComments
          (fixMissingReturns (fixGenericParams (fs, 0) issues) issues) issues) := by
  refine ⟨?_, ?_, ?_, ?_⟩
  · intro st issues h
    exact foldl_fix_id _ _ (fun st' iss hmem => by simp [h iss hmem]) st
  · intro st issues h
    exact foldl_fix_id _ _ (fun st' iss hmem => by simp [h iss hmem]) st
  · intro st issues h
    exact foldl_fix_id _ _ (fun st' iss hmem => by simp [h iss hmem]) st
  · intro fs issues
    rfl

/-- Witness for C1: a pass whose pattern matches no issue leaves the state
unchanged. -/
theorem C1_witness :
    (∀ iss ∈ ([⟨"A.java", 1, "error: no comment x"⟩] : List MIssue),
      strContains iss.message "no @param for <" = false) ∧
    fixGenericParams (fsC1, 0) [⟨"A.java", 1, "error: no comment x"⟩] = (fsC1, 0) :=
  ⟨by decide, C1_passes_filter_independently.1 (fsC1, 0) _ (by decide)⟩

/-! ## Claim C2 -/

/-- C2 counterexample: one malformed marker line (non-numeric line field) makes
`get_generic_param_issues` return the empty list, dropping the issue of the
well-formed line that the same input also contains, refuting the claim that each
malformed line is skipped individually with all other well-formed lines still
emitted. -/
theorem C2_single_bad_line_drops_all :
    getGenericParamIssues
      "a.java:5: warning: no @param for <T>\nb.java:xx: warning: no @param for <E>" =
      [] ∧
    getGenericParamIssues "a.java:5: warning: no @param for <T>" =
      [⟨"a.java", 5, "T"⟩] := by
  refine ⟨by decide, by decide⟩

/-- C2 amended: `get_all_issues` never raises, skips each malformed line
individually (removing a non-parsing line from the input changes nothing else in
its output), and emits an issue only for lines with a recognized marker, at least
three colon segments and a digit line field; `get_generic_param_issues`, however,
catches the `int()` exception only around the whole loop, so an input containing
any marker line with at least three segments and a non-numeric line field yields
the empty list, dropping the issues of all well-formed lines. -/
theorem C2_parser_skip_behaviour :
    (∀ (line : String) (iss : MIssue), parseLineM line = some iss →
      ((strContains line "warning:" || strContains line "error:") &&
        strContains line ":") = true ∧
      3 ≤ (pySplit line ':').length ∧
      pyIsDigit (pyStrip ((pySplit line ':').getD 1 "")) = true) ∧
    (∀ (l1 l2 : List String) (bad : String), parseLineM bad = none →
      (l1 ++ bad :: l2).filterMap parseLineM = (l1 ++ l2).filterMap parseLineM) ∧
    (∀ (text : String) (iss : MIssue), iss ∈ massGetAllIssues text →
      ∃ line ∈ pySplit text '\n', parseLineM line = some iss) ∧
    (∀ ls : List String, (∃ l ∈ ls, gParseLine l = Except.error ()) →
      gIssuesOfLines ls = []) := by
  refine ⟨?_, ?_, ?_, ?_⟩
  · intro line iss h
    simp only [parseLineM] at h
    split_ifs at h with h1 h2 h3
    refine ⟨h1, h2, ?_⟩
    simp only [Bool.and_eq_true] at h3
    exact h3.2
  · intro l1 l2 bad hbad
    rw [List.filterMap_append, List.filterMap_append]
    congr 1
    rw [List.filterMap_cons, hbad]
  · intro text iss h
    rw [massGetAllIssues, List.mem_dedup] at h
    exact List.mem_filterMap.mp h
  · intro ls h
    unfold gIssuesOfLines
    rw [gCollect_error_of_mem ls h]

/-- Witness for C2: removing a non-parsing line from the mass parser's input
leaves the remaining output untouched. -/
theorem C2_witness :
    parseLineM "garbage" = none ∧
    (["a.java:3: warning: no @return x"] ++ "garbage" :: []).filterMap parseLineM =
      (["a.java:3: warning: no @return x"] ++ ([] : List String)).filterMap parseLineM :=
  ⟨by decide, C2_parser_skip_behaviour.2.1 _ _ _ (by decide)⟩

/-! ## Claim C4 -/

/-- C4 counterexample: in the end-to-end scenario the inserted line's content is
the five-space-indented `"     * @param <T> the type parameter\n"`, not the
claimed `" * @param <T> the type parameter"`. -/
theorem C4_inserted_line_content :
    gpMain fsC4 (getGenericParamIssues diag4) = ([("src/Foo.java", linesFooFixed)], 1) ∧
    linesFooFixed.getD 8 "" = "     * @param <T> the type parameter\n" ∧
    linesFooFixed.getD 8 "" ≠ " * @param <T> the type parameter" := by
  refine ⟨by decide, by decide, by decide⟩

/-- C4 amended: the diagnostic line `src/Foo.java:12: warning: no @param for <T>`
parses to one issue, and on a `src/Foo.java` whose 1-based line 9 holds the only
terminator, `fix_generic_param` inserts exactly one new line with content
`"     * @param <T> the type parameter\n"` (five leading spaces, trailing
newline) immediately before former line 9, leaves every other line unchanged, and
the applied count increases by one. -/
theorem C4_end_to_end :
    getGenericParamIssues diag4 = [⟨"src/Foo.java", 12, "T"⟩] ∧
    fsRead fsC4 "src/Foo.java" = some linesFoo ∧
    linesFoo.getD 8 "" = " */\n" ∧
    gpMain fsC4 (getGenericParamIssues diag4) = ([("src/Foo.java", linesFooFixed)], 1) ∧
    linesFooFixed = pyInsert linesFoo 8 "     * @param <T> the type parameter\n" := by
  refine ⟨by decide, by decide, by decide, by decide, by decide⟩

/-! ## Claim C6 -/

/-- C6 counterexample: for an `is`-prefixed method the code lower-cases the whole
name without stripping the prefix, producing `Checks if isempty.` where the claim
requires `Checks if empty.` (the claim's rule is `specMethodComment`). -/
theorem C6_is_has_whole_name_lowercased :
    makeComment "isEmpty" = "Checks if isempty." ∧
    specMethodComment "isEmpty" = "Checks if empty." ∧
    makeComment "isEmpty" ≠ specMethodComment "isEmpty" ∧
    addMethodComment fsC6 0 "C.java" 1 =
      ([("C.java",
         ["/**\n", " * Checks if isempty.\n", " */\n",
          "public boolean isEmpty()\n"])], 1) := by
  refine ⟨by decide, by decide, by decide, by decide⟩

/-- C6 amended: the synthesized summary is `Gets the X.` / `Sets the X.` with the
prefix stripped and the remainder lower-cased for `get`/`set`, `Checks if Y.`
where `Y` is the whole method name lower-cased (prefix not stripped) for
`is`/`has`, and `Performs name operation.` otherwise; and when the line has no
parenthesis-delimited call pattern no comment is synthesized and the file is left
unchanged. -/
theorem C6_summary_rules :
    (∀ name : String, pyStartsWith name "get" = true →
      makeComment name = "Gets the " ++ pyLower (pyDropStr name 3) ++ ".") ∧
    (∀ name : String, pyStartsWith name "get" = false → pyStartsWith name "set" = true →
      makeComment name = "Sets the " ++ pyLower (pyDropStr name 3) ++ ".") ∧
    (∀ name : String, pyStartsWith name "get" = false → pyStartsWith name "set" = false →
      (pyStartsWith name "is" || pyStartsWith name "has") = true →
      makeComment name = "Checks if " ++ pyLower name ++ ".") ∧
    (∀ name : String, pyStartsWith name "get" = false → pyStartsWith name "set" = false →
      (pyStartsWith name "is" || pyStartsWith name "has") = false →
      makeComment name = "Performs " ++ name ++ " operation.") ∧
    (∀ (fs : FS) (cnt : Nat) (fp : String) (ln : Int) (lines : List String)
        (raw : String),
      fsRead fs fp = some lines → ln ≤ (lines.length : Int) →
      pyIndex lines (ln - 1) = some raw →
      searchMethodName (pyStrip raw).toList = none →
      addMethodComment fs cnt fp ln = (fs, cnt)) := by
  refine ⟨?_, ?_, ?_, ?_, ?_⟩
  · intro name h
    simp [makeComment, h]
  · intro name h1 h2
    simp [makeComment, h1, h2]
  · intro name h1 h2 h3
    simp [makeComment, h1, h2, h3]
  · intro name h1 h2 h3
    simp [makeComment, h1, h2, h3]
  · intro fs cnt fp ln lines raw h1 h2 h3 h4
    simp only [String.toList] at h4
    simp [addMethodComment, h1, h2, h3, h4]

/-- Witness for C6 on a `get`-prefixed name. -/
theorem C6_witness :
    pyStartsWith "getName" "get" = true ∧
    makeComment "getName" = "Gets the " ++ pyLower (pyDropStr "getName" 3) ++ "." :=
  ⟨by decide, C6_summary_rules.1 "getName" (by decide)⟩

/-! ## Claim C7 -/

/-- C7: the three-line comment block is inserted immediately before the
declaration line, but because `add_method_comment` computes the indent from the
already-stripped line, the inserted lines carry zero leading whitespace even when
the declaration line is indented by four spaces; the code contradicts the claimed
(and clearly intended) copying of the declaration's leading whitespace. -/
theorem C7_indent_bug_eval :
    addMethodComment fsC7 0 "D.java" 2 =
      ([("D.java",
         ["package a;\n", "/**\n", " * Performs doWork operation.\n", " */\n",
          "    public void doWork()\n"])], 1) ∧
    (("    public void doWork()\n").toList.takeWhile (fun c => c == ' ')).length = 4 ∧
    (("/**\n").toList.takeWhile (fun c => c == ' ')).length = 0 ∧
    ((" * Performs doWork operation.\n").toList.takeWhile (fun c => c == ' ')).length ≠ 4 := by
  refine ⟨by decide, by decide, by decide, by decide⟩

/-! ## Claim C8 -/

/-- C8 counterexample: the mass fixer's own table has no entry for `K` (nor `R`),
so its generic-param path inserts the fallback `the type parameter` for `K`,
while the lookup table of `fix-generic-params.py` maps `K` to
`the key type parameter`; the two scripts do not share one table. -/
theorem C8_mass_fixer_fallback_for_K_R :
    massDescriptions.find? (fun e => e.1 == "K") = none ∧
    massDescriptions.find? (fun e => e.1 == "R") = none ∧
    addGenericParam fsC8 0 "E.java" 3 "K" =
      ([("E.java",
         ["x\n", "     * @param <K> the type parameter\n", " */\n", "class E\n",
          "y\n"])], 1) ∧
    gpDescription "K" = "the key type parameter" ∧
    massDescription "K" ≠ gpDescription "K" := by
  refine ⟨by decide, by decide, by decide, by decide, by decide⟩

/-- C8 amended: each script has its own exact-match table —
`fix-generic-params.py` covers `T,E,K,V,C,O,R` and `mass-fix-javadoc.py` covers
`T,E,C,CH,V,F,VO,S,S1,S2,P,O` — every name outside the respective table falls
back to `the type parameter`, each table entry is returned verbatim, and the mass
fixer's generic-param path yields the fallback (not a table value) for `K` and
`R`. -/
theorem C8_two_tables :
    (∀ p : String, p ∉ gpDescriptions.map Prod.fst →
      gpDescription p = "the type parameter") ∧
    (∀ p : String, p ∉ massDescriptions.map Prod.fst →
      massDescription p = "the type parameter") ∧
    (∀ e ∈ gpDescriptions, gpDescription e.1 = e.2) ∧
    (∀ e ∈ massDescriptions, massDescription e.1 = e.2) ∧
    gpDescriptions.map Prod.fst = ["T", "E", "K", "V", "C", "O", "R"] ∧
    massDescriptions.map Prod.fst =
      ["T", "E", "C", "CH", "V", "F", "VO", "S", "S1", "S2", "P", "O"] ∧
    massDescription "K" = "the type parameter" ∧
    massDescription "R" = "the type parameter" := by
  refine ⟨?_, ?_, by decide, by decide, by decide, by decide, by decide, by decide⟩
  · intro p hp
    unfold gpDescription lookupD
    have hnone : gpDescriptions.find? (fun e => e.1 == p) = none := by
      rw [List.find?_eq_none]
      intro e he hbeq
      refine hp ?_
      have heq : e.1 = p := by simpa using hbeq
      rw [← heq]
      exact List.mem_map_of_mem _ he
    rw [hnone]
    rfl
  · intro p hp
    unfold massDescription lookupD
    have hnone : massDescriptions.find? (fun e => e.1 == p) = none := by
      rw [List.find?_eq_none]
      intro e he hbeq
      refine hp ?_
      have heq : e.1 = p := by simpa using hbeq
      rw [← heq]
      exact List.mem_map_of_mem _ he
    rw [hnone]
    rfl

/-- Witness for C8: a name outside the mass fixer's table yields the fallback. -/
theorem C8_witness :
    ("ZZ" ∉ massDescriptions.map Prod.fst) ∧
    massDescription "ZZ" = "the type parameter" :=
  ⟨by decide, C8_two_tables.2.1 "ZZ" (by decide)⟩

/-! ## Claim C10 -/

/-- C10 counterexample: the generic-param fix has no reported-line bound, so with
reported line 12 on a nine-line file whose terminator lies in the in-bounds part
of the window it still applies a fix and modifies the file, refuting the claim
that an out-of-range reported line always produces a not-applied result with the
file unchanged. -/
theorem C10_generic_fix_out_of_range_applies :
    (linesC10.length : Int) < 12 ∧
    addGenericParam fsC10 0 "A.java" 12 "T" =
      ([("A.java",
         ["l0\n", "l1\n", "l2\n", "l3\n", "l4\n", "l5\n", "l6\n", "l7\n",
          "     * @param <T> the type parameter\n", " */\n"])], 1) ∧
    addGenericParam fsC10 0 "A.java" 12 "T" ≠ (fsC10, 0) := by
  refine ⟨by decide, by decide, by decide⟩

/-- C10 amended: no fix operation reads a line index outside the buffer — every
anchor the scan returns is in bounds and terminator-bearing — and the return and
method-comment fixes require the reported line to be at most the line count,
producing a not-applied result with the file unchanged when it exceeds it; only
the generic-param fix may still apply under an out-of-range reported line. -/
theorem C10_bounds_guards :
    (∀ (lines : List String) (n b j : Int), findJavadocEnd lines n b = some j →
      0 ≤ j ∧ j < (lines.length : Int) ∧
      strContains (lines.getD j.toNat "") "*/" = true) ∧
    (∀ (fs : FS) (cnt : Nat) (fp : String) (ln : Int) (lines : List String),
      fsRead fs fp = some lines → (lines.length : Int) < ln →
      addReturn fs cnt fp ln = (fs, cnt)) ∧
    (∀ (fs : FS) (cnt : Nat) (fp : String) (ln : Int) (lines : List String),
      fsRead fs fp = some lines → (lines.length : Int) < ln →
      addMethodComment fs cnt fp ln = (fs, cnt)) := by
  refine ⟨?_, ?_, ?_⟩
  · intro lines n b j h
    obtain ⟨h1, h2, _, _⟩ := findJavadocEnd_some_spec h
    obtain ⟨hj1, hj2⟩ := hasTerm_true_iff.mp h1
    exact ⟨by omega, hj1, hj2⟩
  · intro fs cnt fp ln lines h1 h2
    have hc : ¬ (ln ≤ (lines.length : Int)) := by omega
    simp [addReturn, h1, hc]
  · intro fs cnt fp ln lines h1 h2
    have hc : ¬ (ln ≤ (lines.length : Int)) := by omega
    simp [addMethodComment, h1, hc]

/-- Witness for C10: the return fix with reported line 12 on a nine-line file is
not applied and leaves the filesystem unchanged. -/
theorem C10_witness :
    fsRead fsC10 "A.java" = some linesC10 ∧ (linesC10.length : Int) < 12 ∧
    addReturn fsC10 0 "A.java" 12 = (fsC10, 0) :=
  ⟨by decide, by decide,
   C10_bounds_guards.2.1 fsC10 0 "A.java" 12 linesC10 (by decide) (by decide)⟩
